import Mathlib

/-!
Verification development for the `sping` repository: a minimal Go HTTP
server exposing `/ping`, `/version` and `/now`, wrapped in CORS,
access-logging and panic-recovery middleware, with graceful shutdown.

The definitions below are a shallow embedding of `main.go` (version
0.0.2, which the specification treats as canonical).  Strings are
manipulated at the level of their character lists so that every
definition reduces inside the kernel.  External standard-library calls
(`net/url.ParseRequestURI`, `(*url.URL).String`, `net.SplitHostPort`,
`net/http` response writing, `encoding/json`) are embedded by faithful
executable models of the behavior this repository exercises; the doc
comment of each such model states its simplifications.
-/

namespace Sping

/-! ### Character and string helpers (kernel-reducible) -/

def isUpperAlpha (c : Char) : Bool := 'A' ≤ c && c ≤ 'Z'

def isLowerAlpha (c : Char) : Bool := 'a' ≤ c && c ≤ 'z'

def isAlphaCh (c : Char) : Bool := isLowerAlpha c || isUpperAlpha c

def isDigitCh (c : Char) : Bool := '0' ≤ c && c ≤ '9'

/-- ASCII lower-casing of a character, as Go `strings.ToLower` acts on
the ASCII scheme characters accepted by `getScheme`. -/
def charToLower (c : Char) : Char :=
  if isUpperAlpha c then Char.ofNat (c.toNat + 32) else c

/-- Lower-case a string character-wise (ASCII). -/
def toLowerStr (s : String) : String := String.mk (s.data.map charToLower)

/-- Characters of a string. -/
def chars (s : String) : List Char := s.data

/-- First `n` characters of a string. -/
def strTake (s : String) (n : Nat) : String := String.mk (s.data.take n)

/-- All but the first `n` characters of a string. -/
def strDrop (s : String) (n : Nat) : String := String.mk (s.data.drop n)

/-- Does the string start with the character `c`? -/
def startsWithChar (s : String) (c : Char) : Bool :=
  match s.data with
  | [] => false
  | d :: _ => d == c

/-- Does the string start with two `/` characters? -/
def startsWithSlashSlash (s : String) : Bool :=
  match s.data with
  | '/' :: '/' :: _ => true
  | _ => false

/-- Does the string contain character `c`? -/
def containsChar (s : String) (c : Char) : Bool := s.data.any (fun d => d == c)

/-- Split at the first occurrence of `sep`: returns the part before, the
part after, and whether `sep` occurred (the model of Go `strings.Cut`). -/
def cutChar (sep : Char) : List Char → List Char × List Char × Bool
  | [] => ([], [], false)
  | c :: rest =>
    if c == sep then ([], rest, true)
    else
      let r := cutChar sep rest
      (c :: r.1, r.2.1, r.2.2)

/-- Split at the last occurrence of `sep`: `some (before, after)` when
`sep` occurs, `none` otherwise. -/
def splitAtLast (sep : Char) : List Char → Option (List Char × List Char)
  | [] => none
  | c :: rest =>
    match splitAtLast sep rest with
    | some (a, b) => some (c :: a, b)
    | none => if c == sep then some ([], rest) else none

/-- Index of the last occurrence of `c`, if any. -/
def lastIdxOf (cs : List Char) (c : Char) : Option Nat :=
  match splitAtLast c cs with
  | none => none
  | some (before, _) => some before.length

/-- Index of the first occurrence of `c`, if any. -/
def firstIdxOf (cs : List Char) (c : Char) : Option Nat :=
  let r := cutChar c cs
  if r.2.2 then some r.1.length else none

/-! ### Model of Go `net/url.ParseRequestURI` and `(*url.URL).String`

`main.go` normalizes each whitelist entry by `url.ParseRequestURI`
followed by `(*url.URL).String()`.  The model below follows the control
flow of Go's `url.parse(rawURL, viaRequest=true)` and `URL.String()`.
Simplifications: percent-escaping/unescaping is not performed (entries
are kept verbatim), the authority (userinfo/host) is split but not
validated, and fragments are not split (as in `ParseRequestURI`). -/

/-- Result of Go's internal `getScheme`. -/
inductive SchemeResult where
  | noScheme
  | schemeErr
  | found (scheme rest : List Char)
deriving DecidableEq

/-- Model of Go `net/url.getScheme`'s scan: `acc` holds the scheme
characters read so far (empty iff we are at position 0). -/
def getSchemeAux (acc : List Char) : List Char → SchemeResult
  | [] => .noScheme
  | c :: rest =>
    if isAlphaCh c then getSchemeAux (acc ++ [c]) rest
    else if isDigitCh c || c == '+' || c == '-' || c == '.' then
      if acc.isEmpty then .noScheme else getSchemeAux (acc ++ [c]) rest
    else if c == ':' then
      if acc.isEmpty then .schemeErr else .found acc rest
    else .noScheme

/-- Model of Go `net/url.getScheme`: `none` is the
"missing protocol scheme" error; otherwise the (possibly empty) scheme
and the remainder. -/
def getScheme (rawURL : String) : Option (String × String) :=
  match getSchemeAux [] rawURL.data with
  | .schemeErr => none
  | .noScheme => some ("", rawURL)
  | .found sch rest => some (String.mk sch, String.mk rest)

/-- Model of the query-splitting step of Go `net/url.parse`: returns
(rest, ForceQuery, RawQuery). -/
def splitQuery (rest : List Char) : List Char × Bool × List Char :=
  if rest.getLast? == some '?' && !(rest.dropLast.any (fun d => d == '?')) then
    (rest.dropLast, true, [])
  else
    let r := cutChar '?' rest
    (r.1, false, r.2.1)

/-- Split an authority at the last `@` into (hasUser, userinfo, host),
modelling Go `net/url.parseAuthority` without its validation. -/
def splitAuthority (authority : String) : Bool × String × String :=
  match splitAtLast '@' authority.data with
  | none => (false, "", authority)
  | some (ui, host) => (true, String.mk ui, String.mk host)

/-- Does the string contain a byte Go's `stringContainsCTLByte` rejects? -/
def containsCTLByte (s : String) : Bool :=
  s.data.any (fun c => c.toNat < 0x20 || c.toNat == 0x7f)

/-- The fields of Go's `url.URL` that `ParseRequestURI` can populate
(`Fragment` is never split by `ParseRequestURI`, so it is omitted). -/
structure GoURL where
  scheme : String
  opaq : String
  hasUser : Bool
  user : String
  host : String
  path : String
  omitHost : Bool
  forceQuery : Bool
  rawQuery : String
deriving DecidableEq

/-- Model of Go `net/url.parse(rawURL, viaRequest := true)`, the body of
`ParseRequestURI`.  `none` is a parse error. -/
def urlParse (rawURL : String) : Option GoURL :=
  if containsCTLByte rawURL then none
  else if rawURL = "" then none
  else if rawURL = "*" then
    some { scheme := "", opaq := "", hasUser := false, user := "", host := "",
           path := "*", omitHost := false, forceQuery := false, rawQuery := "" }
  else
    match getScheme rawURL with
    | none => none
    | some (schemeRaw, rest0) =>
      let scheme := toLowerStr schemeRaw
      let q := splitQuery rest0.data
      let rest1 : String := String.mk q.1
      let forceQuery : Bool := q.2.1
      let rawQuery : String := String.mk q.2.2
      if startsWithChar rest1 '/' = false then
        if scheme = "" then none
        else
          some { scheme := scheme, opaq := rest1, hasUser := false, user := "",
                 host := "", path := "", omitHost := false,
                 forceQuery := forceQuery, rawQuery := rawQuery }
      else
        if scheme ≠ "" ∧ startsWithSlashSlash rest1 then
          let c := cutChar '/' (rest1.data.drop 2)
          let authority : String := String.mk c.1
          let rest2 : String := if c.2.2 then String.mk ('/' :: c.2.1) else ""
          let a := splitAuthority authority
          some { scheme := scheme, opaq := "", hasUser := a.1, user := a.2.1,
                 host := a.2.2, path := rest2, omitHost := false,
                 forceQuery := forceQuery, rawQuery := rawQuery }
        else
          some { scheme := scheme, opaq := "", hasUser := false, user := "",
                 host := "", path := rest1, omitHost := scheme ≠ "",
                 forceQuery := forceQuery, rawQuery := rawQuery }

/-- First path segment (the characters before the first `/`). -/
def firstSegment (s : String) : String := String.mk (cutChar '/' s.data).1

/-- Model of Go `(*url.URL).String()` on the URLs `urlParse` produces,
without percent-escaping. -/
def urlString (u : GoURL) : String :=
  let pre := if u.scheme ≠ "" then u.scheme ++ ":" else ""
  let core :=
    if u.opaq ≠ "" then u.opaq
    else
      let authPart :=
        if u.scheme ≠ "" ∨ u.host ≠ "" ∨ u.hasUser then
          if u.omitHost ∧ u.host = "" ∧ u.hasUser = false then ""
          else
            (if u.host ≠ "" ∨ u.path ≠ "" ∨ u.hasUser then "//" else "")
              ++ (if u.hasUser then u.user ++ "@" else "") ++ u.host
        else ""
      let slash :=
        if u.path ≠ "" ∧ startsWithChar u.path '/' = false ∧ u.host ≠ "" then "/"
        else ""
      let dotSlash :=
        if pre = "" ∧ authPart = "" ∧ slash = "" ∧
            containsChar (firstSegment u.path) ':' then "./"
        else ""
      authPart ++ slash ++ dotSlash ++ u.path
  let queryPart := if u.forceQuery ∨ u.rawQuery ≠ "" then "?" ++ u.rawQuery else ""
  pre ++ core ++ queryPart

/-- Model of `url.ParseRequestURI(uri)` followed by `.String()`, as used
by `main` to normalize whitelist entries: `none` is a parse error. -/
def parseRequestURI (s : String) : Option String :=
  (urlParse s).map urlString

/-! ### Model of Go `net.SplitHostPort` -/

/-- Model of Go `net.SplitHostPort`: `some (host, port)` on success,
`none` on any of its errors (missing port, too many colons, unexpected
brackets). -/
def splitHostPort (hostport : String) : Option (String × String) :=
  let cs := hostport.data
  match lastIdxOf cs ':' with
  | none => none
  | some i =>
    if cs.head? == some '[' then
      match firstIdxOf cs ']' with
      | none => none
      | some e =>
        if e + 1 = cs.length then none
        else if e + 1 = i then
          if (cs.drop 1).any (fun d => d == '[') then none
          else if (cs.drop (e + 1)).any (fun d => d == ']') then none
          else some (String.mk ((cs.drop 1).take (e - 1)), String.mk (cs.drop (i + 1)))
        else none
    else
      let host := cs.take i
      if host.any (fun d => d == ':') then none
      else if cs.any (fun d => d == '[') then none
      else if cs.any (fun d => d == ']') then none
      else some (String.mk host, String.mk (cs.drop (i + 1)))

/-! ### Whitelist construction (`main`, lines 145-164) -/

/-- Model of `strings.ReplaceAll(corsWhitelistF, " ", "")`. -/
def removeSpaces (s : String) : String :=
  String.mk (s.data.filter (fun c => c ≠ ' '))

/-- Split a character list at every comma (model of
`strings.Split(s, ",")`, which yields `[""]` on the empty string). -/
def splitCommaList : List Char → List String
  | [] => [""]
  | c :: rest =>
    if c == ',' then "" :: splitCommaList rest
    else
      match splitCommaList rest with
      | [] => [String.mk [c]]
      | s :: ss => String.mk (c :: s.data) :: ss

/-- The raw whitelist entries `corsWhitelistRaw` computed by `main`. -/
def corsEntries (corsWhitelistF : String) : List String :=
  splitCommaList (removeSpaces corsWhitelistF).data

/-- Insert a key into the model of the Go set `map[string]bool` (keys
are unique; only `true` is ever stored). -/
def insertEntry (wl : List String) (s : String) : List String :=
  if s ∈ wl then wl else wl ++ [s]

/-- The `for _, uri := range corsWhitelistRaw` loop of `main`: builds
the whitelist and the list of "Ignoring incorrect URI" warnings.  The
loop `break`s at the first `"*"` entry; entries that fail
`url.ParseRequestURI` are skipped with a warning; successful entries are
stored re-serialized via `valid.String()`. -/
def buildCorsLoop : List String → List String → List String → List String × List String
  | [], wl, warns => (wl, warns)
  | uri :: rest, wl, warns =>
    if uri = "*" then (insertEntry wl "*", warns)
    else
      match parseRequestURI uri with
      | none => buildCorsLoop rest wl (warns ++ ["Ignoring incorrect URI " ++ uri])
      | some norm => buildCorsLoop rest (insertEntry wl norm) warns

/-- The whitelist `corsWhitelist` that `main` builds from the `-cors`
flag value. -/
def buildCorsWhitelist (corsWhitelistF : String) : List String :=
  (buildCorsLoop (corsEntries corsWhitelistF) [] []).1

/-- The warnings logged while building the whitelist. -/
def corsWarnings (corsWhitelistF : String) : List String :=
  (buildCorsLoop (corsEntries corsWhitelistF) [] []).2

/-- The entries the loop examines before it `break`s at the first `"*"`. -/
def entriesBeforeStar : List String → List String
  | [] => []
  | e :: rest => if e = "*" then [] else e :: entriesBeforeStar rest

/-- The warning, if any, that processing entry `e` logs. -/
def corsWarningOf (e : String) : Option String :=
  if parseRequestURI e = none then some ("Ignoring incorrect URI " ++ e) else none

/-! ### HTTP request/response model

A response is the state accumulated in Go's `http.ResponseWriter`:
headers, status code (written by `WriteHeader`; `none` means not yet
written, in which case the effective status is 200), and body.  Headers
behave like the Go map: `hset` models `Header().Set` (replace the key's
entry).  Request headers are an association list; repeated keys model
the multiple values of `http.Header`'s `[]string`. -/

/-- Header collection: association list of (canonical key, value). -/
abbrev Headers := List (String × String)

/-- Remove every entry stored under key `k`. -/
def removeKey (hs : Headers) (k : String) : Headers :=
  match hs with
  | [] => []
  | p :: rest => if p.1 = k then removeKey rest k else p :: removeKey rest k

/-- Model of `Header().Set(k, v)`: the key maps to exactly `v` after. -/
def hset (hs : Headers) (k v : String) : Headers :=
  (k, v) :: removeKey hs k

/-- Model of `Header().Del(k)`. -/
def hdel (hs : Headers) (k : String) : Headers :=
  removeKey hs k

/-- First value stored for key `k`, if any. -/
def hfind (hs : Headers) (k : String) : Option String :=
  match hs with
  | [] => none
  | p :: rest => if p.1 = k then some p.2 else hfind rest k

/-- Model of Go `Header.Get(k)`: first value, or `""` when absent. -/
def headerGet (hs : Headers) (k : String) : String := (hfind hs k).getD ""

/-- Model of the map access `r.Header[k]`: all values for key `k`. -/
def headerValues (hs : Headers) (k : String) : List String :=
  hs.filterMap (fun p => if p.1 = k then some p.2 else none)

/-- An incoming HTTP request, with the fields this program reads. -/
structure Request where
  method : String
  path : String
  headers : Headers
  remoteAddr : String
deriving DecidableEq

/-- The response state accumulated in the `ResponseWriter`. -/
structure Response where
  headers : Headers
  status : Option Nat
  body : String
deriving DecidableEq

/-- The fresh response state at the start of a request. -/
def emptyResponse : Response := { headers := [], status := none, body := "" }

/-- The status the client sees: `status = none` means the header was
never written, in which case Go sends 200 when the handler returns. -/
def effectiveStatus (resp : Response) : Nat := resp.status.getD 200

/-- Model of `(*http.response).WriteHeader(code)`: once the header has
been written the call is ignored (Go logs a
"superfluous response.WriteHeader call" and keeps the first status). -/
def writeHeader (resp : Response) (code : Nat) : Response :=
  match resp.status with
  | some _ => resp
  | none => { resp with status := some code }

/-- Model of a body write `w.Write(...)`: the first write performs an
implicit `WriteHeader(200)` (committing the status), then the bytes are
appended to the body. -/
def writeBody (resp : Response) (s : String) : Response :=
  let resp1 := writeHeader resp 200
  { resp1 with body := resp1.body ++ s }

/-- Model of `http.Error(w, msg, code)`: deletes Content-Length, sets
the plain-text content type and nosniff headers, calls
`WriteHeader(code)` — which is ignored when the response has already
been written — and writes the message followed by a newline. -/
def httpError (resp : Response) (msg : String) (code : Nat) : Response :=
  let hs1 :=
    hset (hset (hdel resp.headers "Content-Length")
        "Content-Type" "text/plain; charset=utf-8")
      "X-Content-Type-Options" "nosniff"
  let resp1 := { resp with headers := hs1 }
  writeBody (writeHeader resp1 code) (msg ++ "\n")

/-- A handler: maps the request and the current response state to the
final response state together with the log lines it emits (in order). -/
abbrev Handler := Request → Response → Response × List String

/-- A possibly panicking handler: `Except.error msg` models an
unrecovered Go `panic(msg)` escaping the handler. -/
abbrev FHandler := Request → Response → Except String (Response × List String)

/-- A handler that never panics, seen as a possibly panicking one. -/
def liftHandler (h : Handler) : FHandler := fun r resp => .ok (h r resp)

/-! ### The middleware chain (`main.go`, lines 42-111) -/

/-- The server value `main` constructs (the host/port fields play no
role in request handling and are omitted). -/
structure Server where
  CORSWhitelist : List String
  AllowedDefaultMethods : String
deriving DecidableEq

/-- The header-setting phase of `corsMiddleware` (lines 44-65): computes
`allowedOrigin` from the whitelist and the request's `Origin` header and
sets the CORS headers when it is nonempty. -/
def corsSetHeaders (server : Server) (r : Request) (resp : Response) : Response :=
  let allowedOrigin :=
    if "*" ∈ server.CORSWhitelist then "*"
    else
      let origin := headerGet r.headers "Origin"
      if origin ∈ server.CORSWhitelist then origin else ""
  if allowedOrigin ≠ "" then
    let allowHeaders := if allowedOrigin ≠ "*" then "Content-Type" ++ ", Authorization" else "Content-Type"
    let resp1 :=
      if allowedOrigin ≠ "*" then
        { resp with headers := hset resp.headers "Access-Control-Allow-Credentials" "true" }
      else resp
    let resp2 := { resp1 with headers := hset resp1.headers "Access-Control-Allow-Origin" allowedOrigin }
    let resp3 := { resp2 with headers := hset resp2.headers "Access-Control-Allow-Methods" server.AllowedDefaultMethods }
    { resp3 with headers := hset resp3.headers "Access-Control-Allow-Headers" allowHeaders }
  else resp

/-- `corsMiddleware` (lines 42-74): sets the CORS headers, then
short-circuits `OPTIONS` requests with `WriteHeader(200)` and otherwise
invokes the next handler.  The `WriteHeader(200)` is modelled as setting
the status directly: this layer wraps the mux and runs before the
logger's epilogue, so nothing has been written when it executes and the
write is never superfluous. -/
def corsMiddleware (server : Server) (next : Handler) : Handler := fun r resp =>
  let resp1 := corsSetHeaders server r resp
  if r.method = "OPTIONS" then ({ resp1 with status := some 200 }, [])
  else next r resp1

/-- `logMiddleware` (lines 77-96): runs the next handler, then resolves
the client IP (preferring `X-Real-Ip`, else `net.SplitHostPort` on
`RemoteAddr`, failing the request with `http.Error(..., 400)` when that
is unparsable) and appends one access-log line. -/
def logMiddleware (next : Handler) : Handler := fun r resp =>
  let out := next r resp
  match headerValues r.headers "X-Real-Ip" with
  | [] =>
    match splitHostPort r.remoteAddr with
    | none => (httpError out.1 ("Unable to parse client IP: " ++ r.remoteAddr) 400, out.2)
    | some hp => (out.1, out.2 ++ [hp.1 ++ " " ++ r.method ++ " " ++ r.path])
  | ip :: _ => (out.1, out.2 ++ [ip ++ " " ++ r.method ++ " " ++ r.path])

/-- `panicMiddleware` (lines 99-111): its `defer`red `recover()` turns
an unrecovered fault of the next handler into a logged "recovered" line
and an `http.Error(w, "Internal server error", 500)`.  Its result type
is a total `Handler`: no fault propagates, which is the model of the
process surviving the panic. -/
def panicMiddleware (next : FHandler) : Handler := fun r resp =>
  match next r resp with
  | .ok out => out
  | .error e => (httpError resp "Internal server error" 500, ["recovered " ++ e])

/-! ### Route handlers and the mux (`main.go`, lines 113-130, 174-182) -/

/-- Hexadecimal digit character for `n < 16` (lower case). -/
def hexDigit (n : Nat) : Char :=
  if n < 10 then Char.ofNat (48 + n) else Char.ofNat (87 + n)

/-- Escaping of one character inside a Go `encoding/json` string
(with the encoder's default HTML escaping of `<`, `>`, `&`). -/
def jsonEscapeChar (c : Char) : List Char :=
  if c = '"' then ['\\', '"']
  else if c = '\\' then ['\\', '\\']
  else if c = '\n' then ['\\', 'n']
  else if c = '\r' then ['\\', 'r']
  else if c = '\t' then ['\\', 't']
  else if c = '<' ∨ c = '>' ∨ c = '&' ∨ c.toNat < 0x20 then
    ['\\', 'u', '0', '0', hexDigit (c.toNat / 16 % 16), hexDigit (c.toNat % 16)]
  else [c]

/-- A Go `encoding/json` string literal for `s` (characters beyond the
ASCII range this repository emits are kept verbatim). -/
def jsonQuote (s : String) : String :=
  String.mk ('"' :: s.data.flatMap jsonEscapeChar ++ ['"'])

/-- The members of a comma-separated header-value list such as
`Access-Control-Allow-Headers`, with surrounding spaces removed. -/
def headerListMembers (v : String) : List String :=
  (splitCommaList v.data).map removeSpaces

/-- `json.NewEncoder(w).Encode(PingResponse{Status: st})`: the object
text followed by the newline the encoder appends. -/
def encodePingResponse (st : String) : String :=
  "\x7b\"status\":" ++ jsonQuote st ++ "\x7d\n"

/-- `json.NewEncoder(w).Encode(VersionResponse{Version: v})`. -/
def encodeVersionResponse (v : String) : String :=
  "\x7b\"version\":" ++ jsonQuote v ++ "\x7d\n"

/-- `json.NewEncoder(w).Encode(NowResponse{ServerTime: t})`. -/
def encodeNowResponse (t : String) : String :=
  "\x7b\"server_time\":" ++ jsonQuote t ++ "\x7d\n"

/-- The build-time version constant. -/
def PING_API_VERSION : String := "0.0.2"

/-- `pingRoute` (lines 113-117): the `Encode` call is a body write,
which commits the implicit 200 status. -/
def pingRoute : Handler := fun _ resp =>
  let resp1 := { resp with headers := hset resp.headers "Content-Type" "application/json" }
  (writeBody resp1 (encodePingResponse "ok"), [])

/-- `versionRoute` (lines 119-123). -/
def versionRoute : Handler := fun _ resp =>
  let resp1 := { resp with headers := hset resp.headers "Content-Type" "application/json" }
  (writeBody resp1 (encodeVersionResponse PING_API_VERSION), [])

/-- `nowRoute` (lines 125-130); the formatted current time is the
parameter `now` (the clock is external). -/
def nowRoute (now : String) : Handler := fun _ resp =>
  let resp1 := { resp with headers := hset resp.headers "Content-Type" "application/json" }
  (writeBody resp1 (encodeNowResponse now), [])

/-- Model of `http.NotFound`: `http.Error(w, "404 page not found", 404)`. -/
def notFoundHandler : Handler := fun _ resp =>
  (httpError resp "404 page not found" 404, [])

/-- The `http.ServeMux` of `main` (lines 174-177), restricted to its
exact-path dispatch on the three registered patterns. -/
def serveMux (now : String) : Handler := fun r resp =>
  if r.path = "/now" then nowRoute now r resp
  else if r.path = "/ping" then pingRoute r resp
  else if r.path = "/version" then versionRoute r resp
  else notFoundHandler r resp

/-- The middleware chain of `main` (lines 179-182), bottom to top:
mux, CORS, logger, panic recovery (outermost). -/
def commonHandler (server : Server) (now : String) : Handler :=
  panicMiddleware (liftHandler (logMiddleware (corsMiddleware server (serveMux now))))

/-! ### Shutdown and exit codes (`main.go`, lines 132-213)

Signals, real time and the internals of `http.Server` are outside a
shallow embedding; the model abstracts `ListenAndServe` and `Shutdown`
by their outcomes and embeds the decision logic of `main` that maps
those outcomes to the process exit code. -/

/-- The drain timeout `shutdownTimeout` of `main` (line 133), seconds. -/
def shutdownTimeout : Nat := 5

/-- Outcome of the `s.ListenAndServe()` goroutine: `serverClosed` is the
`http.ErrServerClosed` returned after a graceful `Shutdown`; any other
error (such as a startup listen failure) carries its message. -/
inductive ListenResult where
  | serverClosed
  | listenFailed (msg : String)
deriving DecidableEq

/-- The goroutine body (lines 194-199): `log.Fatalf` exits the process
with code 1 unless the error is `http.ErrServerClosed`. -/
def listenGoroutineExit : ListenResult → Option Nat
  | .serverClosed => none
  | .listenFailed _ => some 1

/-- Outcome of `s.Shutdown(shutdownCtx)` under its
`shutdownTimeout`-second deadline: either the active requests drained in
time, or the deadline elapsed with requests still active and `Shutdown`
returned the context's error. -/
inductive ShutdownResult where
  | drained
  | deadlineExceeded
deriving DecidableEq

/-- Lines 207-213: a failed graceful shutdown calls `os.Exit(1)`;
otherwise `main` returns and the process exits 0. -/
def shutdownExitCode : ShutdownResult → Nat
  | .drained => 0
  | .deadlineExceeded => 1

/-- The process exit code as a function of the listener and shutdown
outcomes: a listener failure is fatal with code 1; otherwise the
signal-triggered shutdown path decides the code. -/
def mainExitCode (listen : ListenResult) (sd : ShutdownResult) : Nat :=
  match listenGoroutineExit listen with
  | some c => c
  | none => shutdownExitCode sd

/-! ### Helper lemmas -/

theorem str_data_append (a b : String) : (a ++ b).data = a.data ++ b.data := by
  obtain ⟨as⟩ := a
  obtain ⟨bs⟩ := b
  rfl

theorem str_ne_empty_iff (s : String) : s ≠ "" ↔ s.data ≠ [] := by
  obtain ⟨cs⟩ := s
  constructor
  · intro h hd
    exact h (by simp_all)
  · intro h he
    apply h
    simpa using congrArg String.data he

theorem append_ne_empty_left (a b : String) (h : a ≠ "") : a ++ b ≠ "" := by
  rw [str_ne_empty_iff] at h ⊢
  rw [str_data_append]
  simp_all

theorem append_ne_empty_right (a b : String) (h : b ≠ "") : a ++ b ≠ "" := by
  rw [str_ne_empty_iff] at h ⊢
  rw [str_data_append]
  simp_all

theorem hfind_hset_self (hs : Headers) (k v : String) :
    hfind (hset hs k v) k = some v := by
  simp [hset, hfind]

theorem hfind_removeKey_ne (hs : Headers) (k k' : String) (h : k' ≠ k) :
    hfind (removeKey hs k) k' = hfind hs k' := by
  induction hs with
  | nil => rfl
  | cons p rest ih =>
    by_cases hpk : p.1 = k
    · have hpk' : ¬ p.1 = k' := fun hk => h (hk ▸ hpk)
      simp [removeKey, hpk, hfind, hpk', Ne.symm h, ih]
    · simp [removeKey, hpk, hfind, ih]

theorem hfind_hset_ne (hs : Headers) (k v k' : String) (h : k' ≠ k) :
    hfind (hset hs k v) k' = hfind hs k' := by
  simp only [hset, hfind, if_neg (Ne.symm h)]
  exact hfind_removeKey_ne hs k k' h

theorem urlParse_shape (s : String) (u : GoURL) (h : urlParse s = some u) :
    u.scheme ≠ "" ∨
      (u.scheme = "" ∧ u.opaq = "" ∧ u.host = "" ∧ u.hasUser = false ∧
        (u.path = "*" ∨ startsWithChar u.path '/' = true)) := by
  unfold urlParse at h
  split at h
  · exact absurd h (by simp)
  split at h
  · exact absurd h (by simp)
  split at h
  · rw [Option.some_inj] at h
    subst h
    right
    simp
  split at h
  · exact absurd h (by simp)
  case _ schemeRaw rest0 heq =>
    simp only at h
    split at h
    · split at h
      · exact absurd h (by simp)
      · rw [Option.some_inj] at h
        subst h
        left
        simp_all
    · split at h
      · rw [Option.some_inj] at h
        subst h
        left
        simp_all
      case _ hcond =>
        rw [Option.some_inj] at h
        subst h
        by_cases hsch : toLowerStr schemeRaw = ""
        · right
          refine ⟨hsch, rfl, rfl, rfl, Or.inr ?_⟩
          simp_all
        · left
          exact hsch

theorem urlString_ne_empty (u : GoURL)
    (h : u.scheme ≠ "" ∨
      (u.scheme = "" ∧ u.opaq = "" ∧ u.host = "" ∧ u.hasUser = false ∧
        (u.path = "*" ∨ startsWithChar u.path '/' = true))) :
    urlString u ≠ "" := by
  rcases h with hsch | ⟨hsch, hop, hh, hu, hp⟩
  · simp only [urlString, if_pos hsch]
    apply append_ne_empty_left
    apply append_ne_empty_left
    apply append_ne_empty_right
    intro hc
    exact absurd (congrArg String.data hc) (by simp)
  · have hpath : u.path ≠ "" := by
      rcases hp with hp | hp
      · rw [hp]
        intro hc
        exact absurd (congrArg String.data hc) (by simp)
      · rw [str_ne_empty_iff]
        intro hd
        rw [startsWithChar, hd] at hp
        simp at hp
    have hfseg : containsChar (firstSegment u.path) ':' = false := by
      rcases hp with hp | hp
      · rw [hp]
        rfl
      · rw [startsWithChar] at hp
        rcases hd : u.path.data with _ | ⟨c, t⟩
        · rw [hd] at hp
          simp at hp
        · rw [hd] at hp
          simp at hp
          rw [firstSegment, hd, hp]
          simp [cutChar, containsChar]
    have hslash :
        (if u.path ≠ "" ∧ startsWithChar u.path '/' = false ∧ u.host ≠ "" then "/" else "") = "" := by
      rw [if_neg]
      rintro ⟨-, -, hh'⟩
      exact hh' hh
    simp only [urlString, hsch, hop, hh, hu]
    simp [hfseg, hpath]
    exact append_ne_empty_left _ _ hpath

theorem parseRequestURI_ne_empty (s r : String) (h : parseRequestURI s = some r) :
    r ≠ "" := by
  unfold parseRequestURI at h
  cases hu : urlParse s with
  | none => rw [hu] at h; simp at h
  | some u =>
    rw [hu] at h
    simp at h
    subst h
    exact urlString_ne_empty u (urlParse_shape s u hu)

theorem mem_insertEntry (wl : List String) (s m : String) :
    m ∈ insertEntry wl s ↔ m ∈ wl ∨ m = s := by
  unfold insertEntry
  split
  case isTrue hs =>
    constructor
    · exact Or.inl
    · rintro (hm | rfl)
      · exact hm
      · exact hs
  case isFalse hs => simp

theorem mem_buildCorsLoop (l : List String) : ∀ wl warns m,
    m ∈ (buildCorsLoop l wl warns).1 ↔
      m ∈ wl ∨ (m = "*" ∧ "*" ∈ l) ∨
        ∃ e, e ∈ entriesBeforeStar l ∧ parseRequestURI e = some m := by
  induction l with
  | nil =>
    intro wl warns m
    simp [buildCorsLoop, entriesBeforeStar]
  | cons uri rest ih =>
    intro wl warns m
    by_cases hstar : uri = "*"
    · subst hstar
      simp [buildCorsLoop, entriesBeforeStar, mem_insertEntry]
    · cases hp : parseRequestURI uri with
      | none =>
        simp only [buildCorsLoop, if_neg hstar, hp, entriesBeforeStar, ih,
          List.mem_cons]
        constructor
        · rintro (hm | ⟨rfl, hr⟩ | ⟨e, he, hpe⟩)
          · exact Or.inl hm
          · exact Or.inr (Or.inl ⟨rfl, Or.inr hr⟩)
          · exact Or.inr (Or.inr ⟨e, Or.inr he, hpe⟩)
        · rintro (hm | ⟨rfl, (heq | hr)⟩ | ⟨e, (rfl | he), hpe⟩)
          · exact Or.inl hm
          · exact absurd heq.symm hstar
          · exact Or.inr (Or.inl ⟨rfl, hr⟩)
          · rw [hp] at hpe
            exact absurd hpe (by simp)
          · exact Or.inr (Or.inr ⟨e, he, hpe⟩)
      | some norm =>
        simp only [buildCorsLoop, if_neg hstar, hp, entriesBeforeStar, ih,
          mem_insertEntry, List.mem_cons]
        constructor
        · rintro ((hm | rfl) | ⟨rfl, hr⟩ | ⟨e, he, hpe⟩)
          · exact Or.inl hm
          · exact Or.inr (Or.inr ⟨uri, Or.inl rfl, hp⟩)
          · exact Or.inr (Or.inl ⟨rfl, Or.inr hr⟩)
          · exact Or.inr (Or.inr ⟨e, Or.inr he, hpe⟩)
        · rintro (hm | ⟨rfl, (heq | hr)⟩ | ⟨e, (rfl | he), hpe⟩)
          · exact Or.inl (Or.inl hm)
          · exact absurd heq.symm hstar
          · exact Or.inr (Or.inl ⟨rfl, hr⟩)
          · rw [hp] at hpe
            exact Or.inl (Or.inr (Option.some_inj.mp hpe).symm)
          · exact Or.inr (Or.inr ⟨e, he, hpe⟩)

theorem buildCorsLoop_warnings (l : List String) : ∀ wl warns,
    (buildCorsLoop l wl warns).2 =
      warns ++ (entriesBeforeStar l).filterMap corsWarningOf := by
  induction l with
  | nil =>
    intro wl warns
    simp [buildCorsLoop, entriesBeforeStar]
  | cons uri rest ih =>
    intro wl warns
    by_cases hstar : uri = "*"
    · subst hstar
      simp [buildCorsLoop, entriesBeforeStar]
    · cases hp : parseRequestURI uri with
      | none =>
        simp [buildCorsLoop, hstar, hp, entriesBeforeStar, ih, corsWarningOf,
          List.filterMap_cons]
      | some norm =>
        simp [buildCorsLoop, hstar, hp, entriesBeforeStar, ih, corsWarningOf,
          List.filterMap_cons]

theorem mem_buildCorsWhitelist (cfg m : String) :
    m ∈ buildCorsWhitelist cfg ↔
      (m = "*" ∧ "*" ∈ corsEntries cfg) ∨
        ∃ e, e ∈ entriesBeforeStar (corsEntries cfg) ∧ parseRequestURI e = some m := by
  unfold buildCorsWhitelist
  rw [mem_buildCorsLoop]
  simp

theorem buildCorsWhitelist_ne_empty (cfg m : String)
    (h : m ∈ buildCorsWhitelist cfg) : m ≠ "" := by
  rw [mem_buildCorsWhitelist] at h
  rcases h with ⟨rfl, -⟩ | ⟨e, -, hpe⟩
  · intro hc
    exact absurd (congrArg String.data hc) (by simp)
  · exact parseRequestURI_ne_empty e m hpe

theorem corsSetHeaders_wildcard (server : Server) (r : Request) (resp : Response)
    (h : "*" ∈ server.CORSWhitelist) :
    corsSetHeaders server r resp =
      Response.mk
        (hset (hset (hset resp.headers "Access-Control-Allow-Origin" "*")
            "Access-Control-Allow-Methods" server.AllowedDefaultMethods)
          "Access-Control-Allow-Headers" "Content-Type")
        resp.status resp.body := by
  simp [corsSetHeaders, h]

theorem corsSetHeaders_member (server : Server) (r : Request) (resp : Response)
    (hw : "*" ∉ server.CORSWhitelist)
    (hm : headerGet r.headers "Origin" ∈ server.CORSWhitelist)
    (hne : headerGet r.headers "Origin" ≠ "") :
    corsSetHeaders server r resp =
      Response.mk
        (hset (hset (hset (hset resp.headers "Access-Control-Allow-Credentials" "true")
              "Access-Control-Allow-Origin" (headerGet r.headers "Origin"))
            "Access-Control-Allow-Methods" server.AllowedDefaultMethods)
          "Access-Control-Allow-Headers" ("Content-Type" ++ ", Authorization"))
        resp.status resp.body := by
  have hstar : headerGet r.headers "Origin" ≠ "*" := fun hh => hw (hh ▸ hm)
  simp [corsSetHeaders, hw, hm, hne, hstar]

theorem corsSetHeaders_nonmember (server : Server) (r : Request) (resp : Response)
    (hw : "*" ∉ server.CORSWhitelist)
    (hm : headerGet r.headers "Origin" ∉ server.CORSWhitelist) :
    corsSetHeaders server r resp = resp := by
  simp [corsSetHeaders, hw, hm]

theorem corsSetHeaders_body (server : Server) (r : Request) (resp : Response) :
    (corsSetHeaders server r resp).body = resp.body := by
  by_cases hw : "*" ∈ server.CORSWhitelist
  · rw [corsSetHeaders_wildcard server r resp hw]
  · by_cases hm : headerGet r.headers "Origin" ∈ server.CORSWhitelist
    · by_cases hne : headerGet r.headers "Origin" = ""
      · have : corsSetHeaders server r resp = resp := by
          simp [corsSetHeaders, hw, hm, hne]
        rw [this]
      · rw [corsSetHeaders_member server r resp hw hm hne]
    · rw [corsSetHeaders_nonmember server r resp hw hm]

theorem corsSetHeaders_wildcard_congr (wl1 wl2 : List String) (methods : String)
    (r : Request) (resp : Response) (h1 : "*" ∈ wl1) (h2 : "*" ∈ wl2) :
    corsSetHeaders ⟨wl1, methods⟩ r resp = corsSetHeaders ⟨wl2, methods⟩ r resp := by
  rw [corsSetHeaders_wildcard _ r resp h1, corsSetHeaders_wildcard _ r resp h2]

theorem corsSetHeaders_status (server : Server) (r : Request) (resp : Response) :
    (corsSetHeaders server r resp).status = resp.status := by
  by_cases hw : "*" ∈ server.CORSWhitelist
  · rw [corsSetHeaders_wildcard server r resp hw]
  · by_cases hm : headerGet r.headers "Origin" ∈ server.CORSWhitelist
    · by_cases hne : headerGet r.headers "Origin" = ""
      · have : corsSetHeaders server r resp = resp := by
          simp [corsSetHeaders, hw, hm, hne]
        rw [this]
      · rw [corsSetHeaders_member server r resp hw hm hne]
    · rw [corsSetHeaders_nonmember server r resp hw hm]

theorem httpError_status_written (resp : Response) (msg : String) (code s : Nat)
    (h : resp.status = some s) : (httpError resp msg code).status = some s := by
  simp only [httpError, writeBody, writeHeader, h]

theorem httpError_status_fresh (resp : Response) (msg : String) (code : Nat)
    (h : resp.status = none) : (httpError resp msg code).status = some code := by
  simp only [httpError, writeBody, writeHeader, h]

/-- Every downstream path of the logger — the OPTIONS short-circuit,
the three routes, the not-found handler — writes the response before
`logMiddleware`'s epilogue runs, and its status is 200 or 404, never
400. -/
theorem corsMux_writes (server : Server) (now : String) (r : Request) :
    ∃ s, (corsMiddleware server (serveMux now) r emptyResponse).1.status = some s ∧
      (s = 200 ∨ s = 404) := by
  unfold corsMiddleware
  by_cases hm : r.method = "OPTIONS"
  · refine ⟨200, ?_, Or.inl rfl⟩
    simp [hm]
  · simp only [if_neg hm]
    have hst : (corsSetHeaders server r emptyResponse).status = none :=
      corsSetHeaders_status server r emptyResponse
    unfold serveMux
    by_cases h1 : r.path = "/now"
    · refine ⟨200, ?_, Or.inl rfl⟩
      simp [h1, nowRoute, writeBody, writeHeader, hst]
    · by_cases h2 : r.path = "/ping"
      · refine ⟨200, ?_, Or.inl rfl⟩
        simp [h1, h2, pingRoute, writeBody, writeHeader, hst]
      · by_cases h3 : r.path = "/version"
        · refine ⟨200, ?_, Or.inl rfl⟩
          simp [h1, h2, h3, versionRoute, writeBody, writeHeader, hst]
        · refine ⟨404, ?_, Or.inr rfl⟩
          simp [h1, h2, h3, notFoundHandler, httpError, writeBody, writeHeader, hst]

/-! ### The claims -/

/-- Claim C1: for every configured whitelist containing the wildcard
`"*"`, the CORS middleware sets `Access-Control-Allow-Origin` to `"*"`
on every request regardless of the request's `Origin` header, and never
sets the `Access-Control-Allow-Credentials` header on any such request
(the middleware leaves that header exactly as it found it). -/
theorem claim_C1_wildcard_cors (server : Server) (r : Request) (resp : Response)
    (h : "*" ∈ server.CORSWhitelist) :
    hfind (corsSetHeaders server r resp).headers "Access-Control-Allow-Origin" = some "*" ∧
    hfind (corsSetHeaders server r resp).headers "Access-Control-Allow-Credentials" =
      hfind resp.headers "Access-Control-Allow-Credentials" := by
  rw [corsSetHeaders_wildcard server r resp h]
  constructor
  · rw [hfind_hset_ne _ _ _ _ (by decide), hfind_hset_ne _ _ _ _ (by decide),
      hfind_hset_self]
  · rw [hfind_hset_ne _ _ _ _ (by decide), hfind_hset_ne _ _ _ _ (by decide),
      hfind_hset_ne _ _ _ _ (by decide)]

theorem claim_C1_wildcard_cors_witness :
    "*" ∈ (Server.mk ["*"] "GET,OPTIONS").CORSWhitelist ∧
    hfind (corsSetHeaders (Server.mk ["*"] "GET,OPTIONS")
        (Request.mk "GET" "/ping" [("Origin", "https://evil.example")] "1.2.3.4:5")
        emptyResponse).headers "Access-Control-Allow-Origin" = some "*" ∧
    hfind (corsSetHeaders (Server.mk ["*"] "GET,OPTIONS")
        (Request.mk "GET" "/ping" [("Origin", "https://evil.example")] "1.2.3.4:5")
        emptyResponse).headers "Access-Control-Allow-Credentials" = none :=
  ⟨by decide,
    (claim_C1_wildcard_cors (Server.mk ["*"] "GET,OPTIONS")
      (Request.mk "GET" "/ping" [("Origin", "https://evil.example")] "1.2.3.4:5")
      emptyResponse (by decide)).1,
    (claim_C1_wildcard_cors (Server.mk ["*"] "GET,OPTIONS")
      (Request.mk "GET" "/ping" [("Origin", "https://evil.example")] "1.2.3.4:5")
      emptyResponse (by decide)).2⟩

/-- Claim C4: for every configured whitelist without the wildcard, a
request whose `Origin` is a member receives `Access-Control-Allow-Origin`
set to that exact origin, `Access-Control-Allow-Credentials: true`, and
an `Access-Control-Allow-Headers` list including `Authorization`; a
request whose `Origin` is not a member receives no CORS headers at all
(the response is returned unchanged by the header-setting phase). -/
theorem claim_C4_nonwildcard_cors (cfg methods : String) (r : Request) (resp : Response)
    (hw : "*" ∉ buildCorsWhitelist cfg) :
    (headerGet r.headers "Origin" ∈ buildCorsWhitelist cfg →
      hfind (corsSetHeaders ⟨buildCorsWhitelist cfg, methods⟩ r resp).headers
          "Access-Control-Allow-Origin" = some (headerGet r.headers "Origin") ∧
      hfind (corsSetHeaders ⟨buildCorsWhitelist cfg, methods⟩ r resp).headers
          "Access-Control-Allow-Credentials" = some "true" ∧
      ∃ v, hfind (corsSetHeaders ⟨buildCorsWhitelist cfg, methods⟩ r resp).headers
          "Access-Control-Allow-Headers" = some v ∧
        "Authorization" ∈ headerListMembers v) ∧
    (headerGet r.headers "Origin" ∉ buildCorsWhitelist cfg →
      corsSetHeaders ⟨buildCorsWhitelist cfg, methods⟩ r resp = resp) := by
  constructor
  · intro hm
    have hne : headerGet r.headers "Origin" ≠ "" :=
      buildCorsWhitelist_ne_empty cfg _ hm
    rw [corsSetHeaders_member ⟨buildCorsWhitelist cfg, methods⟩ r resp hw hm hne]
    refine ⟨?_, ?_, "Content-Type" ++ ", Authorization", ?_, by decide⟩
    · rw [hfind_hset_ne _ _ _ _ (by decide), hfind_hset_ne _ _ _ _ (by decide),
        hfind_hset_self]
    · rw [hfind_hset_ne _ _ _ _ (by decide), hfind_hset_ne _ _ _ _ (by decide),
        hfind_hset_ne _ _ _ _ (by decide), hfind_hset_self]
    · rw [hfind_hset_self]
  · intro hm
    exact corsSetHeaders_nonmember ⟨buildCorsWhitelist cfg, methods⟩ r resp hw hm

theorem claim_C4_nonwildcard_cors_witness :
    ("*" ∉ buildCorsWhitelist "https://a.example") ∧
    hfind (corsSetHeaders ⟨buildCorsWhitelist "https://a.example", "GET,OPTIONS"⟩
        (Request.mk "GET" "/ping" [("Origin", "https://a.example")] "1.2.3.4:5")
        emptyResponse).headers "Access-Control-Allow-Origin" = some "https://a.example" ∧
    hfind (corsSetHeaders ⟨buildCorsWhitelist "https://a.example", "GET,OPTIONS"⟩
        (Request.mk "GET" "/ping" [("Origin", "https://a.example")] "1.2.3.4:5")
        emptyResponse).headers "Access-Control-Allow-Credentials" = some "true" ∧
    corsSetHeaders ⟨buildCorsWhitelist "https://a.example", "GET,OPTIONS"⟩
        (Request.mk "GET" "/ping" [("Origin", "https://b.example")] "1.2.3.4:5")
        emptyResponse = emptyResponse :=
  ⟨by decide,
    ((claim_C4_nonwildcard_cors "https://a.example" "GET,OPTIONS"
        (Request.mk "GET" "/ping" [("Origin", "https://a.example")] "1.2.3.4:5")
        emptyResponse (by decide)).1 (by decide)).1,
    ((claim_C4_nonwildcard_cors "https://a.example" "GET,OPTIONS"
        (Request.mk "GET" "/ping" [("Origin", "https://a.example")] "1.2.3.4:5")
        emptyResponse (by decide)).1 (by decide)).2.1,
    (claim_C4_nonwildcard_cors "https://a.example" "GET,OPTIONS"
        (Request.mk "GET" "/ping" [("Origin", "https://b.example")] "1.2.3.4:5")
        emptyResponse (by decide)).2 (by decide)⟩

/-- Claim C6: every `OPTIONS` request is answered by the CORS middleware
itself with status 200 and no body, after the CORS headers (if any) have
been set, and without invoking the next handler; every other method
proceeds to the next stage with the CORS headers applied. -/
theorem claim_C6_options_short_circuit (server : Server) (next : Handler)
    (r : Request) (resp : Response) :
    (r.method = "OPTIONS" →
      corsMiddleware server next r resp =
        ({ corsSetHeaders server r resp with status := some 200 }, []) ∧
      effectiveStatus (corsMiddleware server next r resp).1 = 200 ∧
      (corsMiddleware server next r resp).1.body = resp.body ∧
      ∀ next' : Handler,
        corsMiddleware server next' r resp = corsMiddleware server next r resp) ∧
    (r.method ≠ "OPTIONS" →
      corsMiddleware server next r resp = next r (corsSetHeaders server r resp)) := by
  constructor
  · intro hm
    have heq : corsMiddleware server next r resp =
        ({ corsSetHeaders server r resp with status := some 200 }, []) := by
      simp [corsMiddleware, hm]
    refine ⟨heq, ?_, ?_, ?_⟩
    · rw [heq]
      rfl
    · rw [heq]
      exact corsSetHeaders_body server r resp
    · intro next'
      rw [heq]
      simp [corsMiddleware, hm]
  · intro hm
    simp [corsMiddleware, hm]

theorem claim_C6_options_short_circuit_witness :
    (Request.mk "OPTIONS" "/ping" [] "1.2.3.4:5").method = "OPTIONS" ∧
    corsMiddleware (Server.mk ["*"] "GET,OPTIONS") (serveMux "now")
        (Request.mk "OPTIONS" "/ping" [] "1.2.3.4:5") emptyResponse =
      ({ corsSetHeaders (Server.mk ["*"] "GET,OPTIONS")
          (Request.mk "OPTIONS" "/ping" [] "1.2.3.4:5") emptyResponse
          with status := some 200 }, []) ∧
    (corsMiddleware (Server.mk ["*"] "GET,OPTIONS") (serveMux "now")
        (Request.mk "OPTIONS" "/ping" [] "1.2.3.4:5") emptyResponse).1.body = "" :=
  ⟨rfl,
    ((claim_C6_options_short_circuit (Server.mk ["*"] "GET,OPTIONS") (serveMux "now")
      (Request.mk "OPTIONS" "/ping" [] "1.2.3.4:5") emptyResponse).1 rfl).1,
    ((claim_C6_options_short_circuit (Server.mk ["*"] "GET,OPTIONS") (serveMux "now")
      (Request.mk "OPTIONS" "/ping" [] "1.2.3.4:5") emptyResponse).1 rfl).2.2.1⟩

/-- Claim C7: whitelist membership is decided by exact string match of
the request's `Origin` header against origins normalized
(parsed and re-serialized) at startup: a string is stored iff it is
`"*"` occurring as an entry, or the re-serialization of an entry that
parsed; every entry reached by the loop that fails to parse produces an
"Ignoring incorrect URI" warning at startup; and at request time the
CORS layer emits headers only when the wildcard or the literal `Origin`
string is a stored member, with no re-validation or re-parsing. -/
theorem claim_C7_whitelist_normalization (cfg : String) :
    (∀ m, m ∈ buildCorsWhitelist cfg ↔
        (m = "*" ∧ "*" ∈ corsEntries cfg) ∨
          ∃ e, e ∈ entriesBeforeStar (corsEntries cfg) ∧ parseRequestURI e = some m) ∧
    (∀ e, e ∈ entriesBeforeStar (corsEntries cfg) → parseRequestURI e = none →
        ("Ignoring incorrect URI " ++ e) ∈ corsWarnings cfg) ∧
    (∀ methods (r : Request) (resp : Response),
        corsSetHeaders ⟨buildCorsWhitelist cfg, methods⟩ r resp ≠ resp →
        "*" ∈ buildCorsWhitelist cfg ∨
          headerGet r.headers "Origin" ∈ buildCorsWhitelist cfg) := by
  refine ⟨mem_buildCorsWhitelist cfg, ?_, ?_⟩
  · intro e he hp
    unfold corsWarnings
    rw [buildCorsLoop_warnings]
    simp only [List.nil_append]
    exact List.mem_filterMap.mpr ⟨e, he, by simp [corsWarningOf, hp]⟩
  · intro methods r resp hne
    by_cases hw : "*" ∈ buildCorsWhitelist cfg
    · exact Or.inl hw
    · by_cases hm : headerGet r.headers "Origin" ∈ buildCorsWhitelist cfg
      · exact Or.inr hm
      · exact absurd (corsSetHeaders_nonmember _ r resp hw hm) hne

theorem claim_C7_whitelist_normalization_witness :
    "nonsense" ∈ entriesBeforeStar (corsEntries "https://a.example,nonsense") ∧
    parseRequestURI "nonsense" = none ∧
    ("Ignoring incorrect URI " ++ "nonsense") ∈ corsWarnings "https://a.example,nonsense" ∧
    ("https://a.example" ∈ buildCorsWhitelist "https://a.example,nonsense" ↔
      ("https://a.example" = "*" ∧ "*" ∈ corsEntries "https://a.example,nonsense") ∨
        ∃ e, e ∈ entriesBeforeStar (corsEntries "https://a.example,nonsense") ∧
          parseRequestURI e = some "https://a.example") :=
  ⟨by decide, by decide,
    (claim_C7_whitelist_normalization "https://a.example,nonsense").2.1
      "nonsense" (by decide) (by decide),
    (claim_C7_whitelist_normalization "https://a.example,nonsense").1 "https://a.example"⟩

/-- Claim C9: if the comma-separated configuration contains the entry
`"*"` at any position, the CORS evaluator behaves identically to the
whitelist containing only `"*"` (the wildcard branch is checked first),
even though valid entries appearing before the wildcard are stored in
the set. -/
theorem claim_C9_wildcard_dominates (cfg : String) (h : "*" ∈ corsEntries cfg) :
    "*" ∈ buildCorsWhitelist cfg ∧
    (∀ methods (next : Handler) (r : Request) (resp : Response),
      corsMiddleware ⟨buildCorsWhitelist cfg, methods⟩ next r resp =
        corsMiddleware ⟨["*"], methods⟩ next r resp) ∧
    (∀ e m, e ∈ entriesBeforeStar (corsEntries cfg) → parseRequestURI e = some m →
      m ∈ buildCorsWhitelist cfg) := by
  have hw : "*" ∈ buildCorsWhitelist cfg :=
    (mem_buildCorsWhitelist cfg "*").mpr (Or.inl ⟨rfl, h⟩)
  refine ⟨hw, ?_, ?_⟩
  · intro methods next r resp
    unfold corsMiddleware
    rw [corsSetHeaders_wildcard_congr (buildCorsWhitelist cfg) ["*"] methods r resp
      hw (by decide)]
  · intro e m he hp
    exact (mem_buildCorsWhitelist cfg m).mpr (Or.inr ⟨e, he, hp⟩)

theorem claim_C9_wildcard_dominates_witness :
    "*" ∈ corsEntries "https://a.example,*" ∧
    "*" ∈ buildCorsWhitelist "https://a.example,*" ∧
    "https://a.example" ∈ buildCorsWhitelist "https://a.example,*" ∧
    corsMiddleware ⟨buildCorsWhitelist "https://a.example,*", "GET,OPTIONS"⟩
        (serveMux "now")
        (Request.mk "GET" "/ping" [("Origin", "https://a.example")] "1.2.3.4:5")
        emptyResponse =
      corsMiddleware ⟨["*"], "GET,OPTIONS"⟩ (serveMux "now")
        (Request.mk "GET" "/ping" [("Origin", "https://a.example")] "1.2.3.4:5")
        emptyResponse :=
  ⟨by decide,
    (claim_C9_wildcard_dominates "https://a.example,*" (by decide)).1,
    (claim_C9_wildcard_dominates "https://a.example,*" (by decide)).2.2
      "https://a.example" "https://a.example" (by decide) (by decide),
    (claim_C9_wildcard_dominates "https://a.example,*" (by decide)).2.1
      "GET,OPTIONS" (serveMux "now")
      (Request.mk "GET" "/ping" [("Origin", "https://a.example")] "1.2.3.4:5")
      emptyResponse⟩

/-- Claim C10: for every configured whitelist without the wildcard, a
request carrying no `Origin` header (`Header.Get` returns the empty
string) never receives any CORS headers: the empty string cannot be a
member, since every stored entry is the re-serialization of a
successfully parsed URI and parsing the empty string fails. -/
theorem claim_C10_empty_origin (cfg methods : String) (r : Request) (resp : Response)
    (hw : "*" ∉ buildCorsWhitelist cfg)
    (ho : headerGet r.headers "Origin" = "") :
    parseRequestURI "" = none ∧
    "" ∉ buildCorsWhitelist cfg ∧
    corsSetHeaders ⟨buildCorsWhitelist cfg, methods⟩ r resp = resp := by
  refine ⟨rfl, fun hc => buildCorsWhitelist_ne_empty cfg "" hc rfl, ?_⟩
  apply corsSetHeaders_nonmember _ r resp hw
  rw [ho]
  exact fun hc => buildCorsWhitelist_ne_empty cfg "" hc rfl

theorem claim_C10_empty_origin_witness :
    ("*" ∉ buildCorsWhitelist "https://a.example") ∧
    headerGet (Request.mk "GET" "/ping" [] "1.2.3.4:5").headers "Origin" = "" ∧
    corsSetHeaders ⟨buildCorsWhitelist "https://a.example", "GET,OPTIONS"⟩
        (Request.mk "GET" "/ping" [] "1.2.3.4:5") emptyResponse = emptyResponse :=
  ⟨by decide, rfl,
    (claim_C10_empty_origin "https://a.example" "GET,OPTIONS"
      (Request.mk "GET" "/ping" [] "1.2.3.4:5") emptyResponse
      (by decide) rfl).2.2⟩

/-- Claim C5, counterexample: in the actual chain, when the raw
connection address is unparsable and no `X-Real-Ip` header is present,
the request is NOT failed with a 400 status — the downstream handler
has already written the response (here `/ping` wrote its body,
committing the implicit 200), so the logger's `WriteHeader(400)` inside
`http.Error` is superfluous and ignored, and the client-visible status
stays 200. -/
theorem claim_C5_log_after_response_counterexample :
    headerValues (Request.mk "GET" "/ping" [] "badaddr").headers "X-Real-Ip" = [] ∧
    splitHostPort "badaddr" = none ∧
    effectiveStatus (logMiddleware
        (corsMiddleware (Server.mk ["*"] "GET,OPTIONS") (serveMux "now"))
        (Request.mk "GET" "/ping" [] "badaddr") emptyResponse).1 = 200 ∧
    ¬ effectiveStatus (logMiddleware
        (corsMiddleware (Server.mk ["*"] "GET,OPTIONS") (serveMux "now"))
        (Request.mk "GET" "/ping" [] "badaddr") emptyResponse).1 = 400 := by
  decide

/-- Claim C5 as amended: the access logger runs strictly after the
downstream response is written (the downstream result is computed first
and passed through, with the access-log line appended after the
downstream log lines) and resolves the client IP by preferring
`X-Real-Ip`, else splitting host:port from the raw connection address;
when that address is unparsable and no `X-Real-Ip` is present, the
logger emits no access-log line and calls `http.Error(..., 400)`, but
because every downstream path (routes, OPTIONS short-circuit,
not-found) has already written the response, the superfluous
`WriteHeader(400)` is ignored: only the error text is appended and the
client-visible status remains the downstream status (200 or 404), never
400. -/
theorem claim_C5_log_after_response_amended (server : Server) (now : String) (r : Request) :
    (∀ ip rest, headerValues r.headers "X-Real-Ip" = ip :: rest →
      logMiddleware (corsMiddleware server (serveMux now)) r emptyResponse =
        ((corsMiddleware server (serveMux now) r emptyResponse).1,
          (corsMiddleware server (serveMux now) r emptyResponse).2 ++
            [ip ++ " " ++ r.method ++ " " ++ r.path])) ∧
    (headerValues r.headers "X-Real-Ip" = [] →
      ∀ host port, splitHostPort r.remoteAddr = some (host, port) →
        logMiddleware (corsMiddleware server (serveMux now)) r emptyResponse =
          ((corsMiddleware server (serveMux now) r emptyResponse).1,
            (corsMiddleware server (serveMux now) r emptyResponse).2 ++
              [host ++ " " ++ r.method ++ " " ++ r.path])) ∧
    (headerValues r.headers "X-Real-Ip" = [] →
      splitHostPort r.remoteAddr = none →
        logMiddleware (corsMiddleware server (serveMux now)) r emptyResponse =
          (httpError (corsMiddleware server (serveMux now) r emptyResponse).1
              ("Unable to parse client IP: " ++ r.remoteAddr) 400,
            (corsMiddleware server (serveMux now) r emptyResponse).2) ∧
        ∃ s, (corsMiddleware server (serveMux now) r emptyResponse).1.status = some s ∧
          s ≠ 400 ∧
          effectiveStatus (logMiddleware (corsMiddleware server (serveMux now)) r
            emptyResponse).1 = s) := by
  refine ⟨?_, ?_, ?_⟩
  · intro ip rest hv
    simp [logMiddleware, hv]
  · intro hv host port hs
    simp [logMiddleware, hv, hs]
  · intro hv hs
    have heq : logMiddleware (corsMiddleware server (serveMux now)) r emptyResponse =
        (httpError (corsMiddleware server (serveMux now) r emptyResponse).1
            ("Unable to parse client IP: " ++ r.remoteAddr) 400,
          (corsMiddleware server (serveMux now) r emptyResponse).2) := by
      simp [logMiddleware, hv, hs]
    refine ⟨heq, ?_⟩
    obtain ⟨s, hsome, hcases⟩ := corsMux_writes server now r
    refine ⟨s, hsome, ?_, ?_⟩
    · rcases hcases with rfl | rfl
      · decide
      · decide
    · rw [heq]
      simp only [effectiveStatus]
      rw [httpError_status_written _ _ _ s hsome]
      rfl

theorem claim_C5_log_after_response_amended_witness :
    headerValues (Request.mk "GET" "/ping" [] "badaddr").headers "X-Real-Ip" = [] ∧
    splitHostPort "badaddr" = none ∧
    (logMiddleware (corsMiddleware (Server.mk ["*"] "GET,OPTIONS") (serveMux "now"))
        (Request.mk "GET" "/ping" [] "badaddr") emptyResponse =
      (httpError (corsMiddleware (Server.mk ["*"] "GET,OPTIONS") (serveMux "now")
            (Request.mk "GET" "/ping" [] "badaddr") emptyResponse).1
          ("Unable to parse client IP: " ++ "badaddr") 400,
        (corsMiddleware (Server.mk ["*"] "GET,OPTIONS") (serveMux "now")
            (Request.mk "GET" "/ping" [] "badaddr") emptyResponse).2)) ∧
    (∃ s, (corsMiddleware (Server.mk ["*"] "GET,OPTIONS") (serveMux "now")
          (Request.mk "GET" "/ping" [] "badaddr") emptyResponse).1.status = some s ∧
        s ≠ 400 ∧
        effectiveStatus (logMiddleware
          (corsMiddleware (Server.mk ["*"] "GET,OPTIONS") (serveMux "now"))
          (Request.mk "GET" "/ping" [] "badaddr") emptyResponse).1 = s) ∧
    logMiddleware (corsMiddleware (Server.mk ["*"] "GET,OPTIONS") (serveMux "now"))
        (Request.mk "GET" "/ping" [] "1.2.3.4:56") emptyResponse =
      ((corsMiddleware (Server.mk ["*"] "GET,OPTIONS") (serveMux "now")
          (Request.mk "GET" "/ping" [] "1.2.3.4:56") emptyResponse).1,
        (corsMiddleware (Server.mk ["*"] "GET,OPTIONS") (serveMux "now")
            (Request.mk "GET" "/ping" [] "1.2.3.4:56") emptyResponse).2 ++
          ["1.2.3.4" ++ " " ++ "GET" ++ " " ++ "/ping"]) :=
  ⟨rfl, by decide,
    ((claim_C5_log_after_response_amended (Server.mk ["*"] "GET,OPTIONS") "now"
      (Request.mk "GET" "/ping" [] "badaddr")).2.2 rfl (by decide)).1,
    ((claim_C5_log_after_response_amended (Server.mk ["*"] "GET,OPTIONS") "now"
      (Request.mk "GET" "/ping" [] "badaddr")).2.2 rfl (by decide)).2,
    (claim_C5_log_after_response_amended (Server.mk ["*"] "GET,OPTIONS") "now"
      (Request.mk "GET" "/ping" [] "1.2.3.4:56")).2.1 rfl "1.2.3.4" "56" (by decide)⟩

/-- Claim C2: the panic-recovery middleware is installed as the
outermost layer of the chain, and for every request whose downstream
processing raises an unrecovered panic it catches the fault, writes a
500 response for that request, and (being a total function on the
downstream outcome) never propagates the fault, so every other request
is still served by the same handler.  Being outermost, its entry state
is always the fresh unwritten response (`status = none`), where the
`http.Error` 500 is a genuine `WriteHeader(500)`. -/
theorem claim_C2_panic_recovery (server : Server) (now : String) (next : FHandler)
    (r : Request) (resp : Response) (e : String) (h : next r resp = .error e) :
    panicMiddleware next r resp =
      (httpError resp "Internal server error" 500, ["recovered " ++ e]) ∧
    (resp.status = none → effectiveStatus (panicMiddleware next r resp).1 = 500) ∧
    commonHandler server now =
      panicMiddleware (liftHandler (logMiddleware (corsMiddleware server (serveMux now)))) := by
  refine ⟨?_, ?_, rfl⟩
  · simp [panicMiddleware, h]
  · intro hfresh
    simp [panicMiddleware, h, httpError, writeBody, writeHeader, hfresh, effectiveStatus]

theorem claim_C2_panic_recovery_witness :
    (fun (_ : Request) (_ : Response) =>
        (Except.error "boom" : Except String (Response × List String)))
        (Request.mk "GET" "/ping" [] "1.2.3.4:5") emptyResponse = .error "boom" ∧
    panicMiddleware
        (fun _ _ => (Except.error "boom" : Except String (Response × List String)))
        (Request.mk "GET" "/ping" [] "1.2.3.4:5") emptyResponse =
      (httpError emptyResponse "Internal server error" 500, ["recovered " ++ "boom"]) ∧
    effectiveStatus (panicMiddleware
        (fun _ _ => (Except.error "boom" : Except String (Response × List String)))
        (Request.mk "GET" "/ping" [] "1.2.3.4:5") emptyResponse).1 = 500 :=
  ⟨rfl,
    (claim_C2_panic_recovery (Server.mk ["*"] "GET,OPTIONS") "now"
      (fun _ _ => .error "boom")
      (Request.mk "GET" "/ping" [] "1.2.3.4:5") emptyResponse "boom" rfl).1,
    (claim_C2_panic_recovery (Server.mk ["*"] "GET,OPTIONS") "now"
      (fun _ _ => .error "boom")
      (Request.mk "GET" "/ping" [] "1.2.3.4:5") emptyResponse "boom" rfl).2.1 rfl⟩

/-- Claim C3: the process exit code is 0 on clean shutdown after an
interrupt or terminate signal, 1 when the listener fails at startup, and
1 when the drain timeout (the fixed 5-second `shutdownTimeout`) elapses
with requests still active after a signal (`Shutdown` returns the
deadline error and `main` calls `os.Exit(1)` instead of waiting
further). -/
theorem claim_C3_exit_codes :
    mainExitCode .serverClosed .drained = 0 ∧
    (∀ msg sd, mainExitCode (.listenFailed msg) sd = 1) ∧
    mainExitCode .serverClosed .deadlineExceeded = 1 ∧
    shutdownTimeout = 5 :=
  ⟨rfl, fun _ _ => rfl, rfl, rfl⟩

/-- Claim C8, counterexample: a GET request to `/ping` does not return a
body that is exactly the JSON text of the status object, because
`json.NewEncoder(w).Encode` appends a newline after the object. -/
theorem claim_C8_ping_counterexample :
    ¬ (serveMux "now" (Request.mk "GET" "/ping" [] "1.2.3.4:5")
        emptyResponse).1.body = "\x7b\"status\":\"ok\"\x7d" := by
  decide

/-- Claim C8 as amended: every GET request to `/ping` returns HTTP
status 200 with a body that is exactly the JSON text of the status
object followed by the single newline `json.Encoder.Encode` appends. -/
theorem claim_C8_ping_amended (now : String) (r : Request)
    (h1 : r.method = "GET") (h2 : r.path = "/ping") :
    (serveMux now r emptyResponse).1.body = "\x7b\"status\":\"ok\"\x7d\n" ∧
    effectiveStatus (serveMux now r emptyResponse).1 = 200 := by
  have hmux : serveMux now r emptyResponse = pingRoute r emptyResponse := by
    unfold serveMux
    rw [h2, if_neg (by decide), if_pos rfl]
  rw [hmux]
  exact ⟨rfl, rfl⟩

theorem claim_C8_ping_amended_witness :
    (Request.mk "GET" "/ping" [] "1.2.3.4:5").method = "GET" ∧
    (Request.mk "GET" "/ping" [] "1.2.3.4:5").path = "/ping" ∧
    (serveMux "now" (Request.mk "GET" "/ping" [] "1.2.3.4:5")
        emptyResponse).1.body = "\x7b\"status\":\"ok\"\x7d\n" ∧
    effectiveStatus (serveMux "now" (Request.mk "GET" "/ping" [] "1.2.3.4:5")
        emptyResponse).1 = 200 :=
  ⟨rfl, rfl,
    (claim_C8_ping_amended "now" (Request.mk "GET" "/ping" [] "1.2.3.4:5") rfl rfl).1,
    (claim_C8_ping_amended "now" (Request.mk "GET" "/ping" [] "1.2.3.4:5") rfl rfl).2⟩

end Sping
